import Mathlib

/-!
Verification development for the `ursa` validation library (github.com/jdudmesh/ursa).

The library is a zod-inspired, reflection-based validation engine written in Go.
We shallow-embed the code paths relevant to the claims:

* the generic scalar engine `validator[T]` (`generic.go`: `Parse`, `convert`,
  `setDefault`) together with the sentinel error values,
* the string rules (`MinLength`, `MaxLength`, `Matches`),
* the time rules (`NotBefore`, `NotAfter`) and the time validator,
* the numeric validator `ursaNumber` of the `number.go` revision
  (string coercion through a float64 intermediate),
* the composite `objectValidator` (`object.go`: ordered `fields` slice,
  `extract`, `Parse`, refiners, and the `GetInt` accessor of the result).

Modelling conventions:

* Go dynamic values (`any`) are the inductive `GoVal`.  The embedding carries
  one Go type per reflect kind used by the code (`string`, `int`, `float64`,
  `time.Time`, pointers, `nil`), so a type assertion `.(T)` succeeds exactly
  when the reflect kinds agree, as in the source paths modelled here.
* `float64` is modelled by exact rationals `ℚ`; `strconv.ParseFloat` is
  modelled as exact decimal parsing.  Every claim settled through this model
  only depends on properties that are insensitive to the rounding step
  (e.g. truncation of any value of [3, 4) is 3).
* `time.Time` is modelled by an integer instant; `Before`/`After` are `<`/`>`.
* Go slices are lists, `map`s are association lists (no duplicate keys are
  produced by the code paths modelled).
* functions that panic in Go return a `GoOutcome` with an explicit panic case.
-/

set_option autoImplicit false

namespace Ursa

/-! ## Go reflect kinds and the value universe -/

/-- The reflect kinds that appear in the modelled code paths. -/
inductive GoKind where
  | invalid
  | str
  | int
  | float64
  | struct_
  | ptr
  deriving DecidableEq, Repr

/-- The target types `T` the scalar engine is instantiated at in the claims:
`string`, `int`, `float64` and `time.Time`. -/
inductive GoTy where
  | tstr
  | tint
  | tfloat
  | ttime
  deriving DecidableEq, Repr

/-- A Go dynamic value (`any`).  `vnil` is the untyped nil interface; `vptr`
is a non-nil pointer (`&x`); `vtime` is a `time.Time` instant. -/
inductive GoVal where
  | vnil
  | vstr (s : String)
  | vint (n : Int)
  | vfloat (q : ℚ)
  | vtime (t : Int)
  | vptr (v : GoVal)
  deriving DecidableEq, Repr

/-- Reflect kind of a dynamic value, `reflect.ValueOf(v).Kind()`. -/
def kindOf : GoVal → GoKind
  | .vnil => .invalid
  | .vstr _ => .str
  | .vint _ => .int
  | .vfloat _ => .float64
  | .vtime _ => .struct_
  | .vptr _ => .ptr

/-- The reflect kind of a target type's zero value. -/
def kindOfTy : GoTy → GoKind
  | .tstr => .str
  | .tint => .int
  | .tfloat => .float64
  | .ttime => .struct_

/-- The zero value of a target type (`var typedVal T`). -/
def zeroOf : GoTy → GoVal
  | .tstr => .vstr ""
  | .tint => .vint 0
  | .tfloat => .vfloat 0
  | .ttime => .vtime 0

/-- One level of pointer indirection: `if vo.Kind() == reflect.Ptr { vo = vo.Elem() }`. -/
def derefVal : GoVal → GoVal
  | .vptr x => x
  | x => x

/-! ## Errors (`generic.go`)

`parseError` carries a message and wrapped inner causes.  The sentinel
variables (`InvalidTypeError`, ...) are global values compared by identity in
the code and its tests, so each sentinel is its own constructor; ad-hoc
`&parseError{...}` values are built with `ParseErr.mk`; wrapped inner causes
are recorded by their message strings. -/

inductive ParseErr where
  | invalidType
  | invalidValue
  | invalidValidatorState
  | requiredMissing
  | missingTransformer
  | mk (message : String) (inner : List String)
  deriving DecidableEq, Repr

/-- Message text of an error, `(*parseError).Error()`.  Note the source gives `InvalidValidatorStateError`
the same message text "invalid type" as `InvalidTypeError`; the two sentinels
are still distinct values. -/
def ParseErr.message : ParseErr → String
  | .invalidType => "invalid type"
  | .invalidValue => "invalid value"
  | .invalidValidatorState => "invalid type"
  | .requiredMissing => "missing required property"
  | .missingTransformer => "missing property transformer"
  | .mk m _ => m

/-! ## Numeric coercion helpers -/

/-- Digit run to a natural number. -/
def digitsToNat (l : List Char) : Nat :=
  l.foldl (fun acc c => 10 * acc + (c.toNat - 48)) 0

/-- Model of `strconv.ParseFloat(s, 64)`, modelled as exact decimal parsing into `ℚ`
(sign, integer digits, optional fraction; exponents and hex floats are not
exercised by any claim). -/
def parseGoFloat (s : String) : Option ℚ :=
  let cs := s.toList
  let signAndRest : ℚ × List Char :=
    match cs with
    | '-' :: t => (-1, t)
    | '+' :: t => (1, t)
    | t => (1, t)
  let sign := signAndRest.1
  let rest := signAndRest.2
  let ip := rest.takeWhile Char.isDigit
  let rest2 := rest.dropWhile Char.isDigit
  match rest2 with
  | [] =>
      if ip.isEmpty then none
      else some (sign * (digitsToNat ip : ℚ))
  | '.' :: fp =>
      if fp.all Char.isDigit ∧ ¬(ip.isEmpty ∧ fp.isEmpty) then
        some (sign * ((digitsToNat ip : ℚ) + (digitsToNat fp : ℚ) / (10 ^ fp.length)))
      else none
  | _ => none

/-- Model of `strconv.ParseInt(s, 10, 64)` (overflow is not exercised by any claim). -/
def parseGoInt (s : String) : Option Int :=
  let cs := s.toList
  let signAndRest : Int × List Char :=
    match cs with
    | '-' :: t => (-1, t)
    | '+' :: t => (1, t)
    | t => (1, t)
  let ds := signAndRest.2
  if ds.isEmpty ∨ ¬ ds.all Char.isDigit then none
  else some (signAndRest.1 * (digitsToNat ds : Int))

/-- Go conversion of `float64` to an integer type: truncation toward zero. -/
def goTrunc (q : ℚ) : Int :=
  Int.tdiv q.num (q.den : Int)

/-- Go conversion `string(i)` for an integer `i`: the one-code-point string of
code point `i`, or "�" when `i` is not a valid code point. -/
def goIntToString (n : Int) : String :=
  if 0 ≤ n ∧ Nat.isValidChar n.toNat then
    String.singleton (Char.ofNat n.toNat)
  else
    "�"

/-- Predicate `isNumeric` (`generic.go`): the reflect kind of the value is a numeric
kind.  (Complex and the sized int/uint kinds do not occur in this universe.) -/
def isNumericVal (v : GoVal) : Bool :=
  match kindOf v with
  | .int => true
  | .float64 => true
  | _ => false

/-- Predicate `isNumeric` applied to the zero value of the target type. -/
def isNumericTy (t : GoTy) : Bool :=
  match t with
  | .tint => true
  | .tfloat => true
  | _ => false

/-- Convertibility check `reflect.TypeOf(val).ConvertibleTo(reflect.TypeOf(typedVal))` for the
types of this universe.  Go permits conversions between numeric types, and
integer-to-string conversion (code point); nothing else converts across
kinds here.  `invalid` (nil) and pointer types convert to none of the
scalar targets. -/
def goConvertibleTo (k : GoKind) (t : GoTy) : Bool :=
  match k, t with
  | .int, .tint => true
  | .int, .tfloat => true
  | .int, .tstr => true
  | .float64, .tint => true
  | .float64, .tfloat => true
  | .str, .tstr => true
  | .struct_, .ttime => true
  | _, _ => false

/-- Conversion `reflect.ValueOf(val).Convert(reflect.TypeOf(typedVal))` on the
convertible pairs of `goConvertibleTo` (identity elsewhere, unreached). -/
def goConvert (v : GoVal) (t : GoTy) : GoVal :=
  match v, t with
  | .vint n, .tint => .vint n
  | .vint n, .tfloat => .vfloat (n : ℚ)
  | .vint n, .tstr => .vstr (goIntToString n)
  | .vfloat q, .tint => .vint (goTrunc q)
  | .vfloat q, .tfloat => .vfloat q
  | .vstr s, .tstr => .vstr s
  | .vtime x, .ttime => .vtime x
  | v, _ => v

/-- Coercion `coerceToNumber[float64]` (the `number.go` coercion used by
`validator[T].convert`): dereference pointers, require a string, parse it as
a float64.  On a non-string the sentinel `InvalidValueError` is returned; a
`strconv` parse failure produces a `strconv.NumError` (modelled as an ad-hoc
error — `convert` discards the error value either way). -/
def coerceToNumberF : GoVal → Except ParseErr ℚ
  | .vptr x => coerceToNumberF x
  | .vstr s =>
      match parseGoFloat s with
      | some q => .ok q
      | none => .error (.mk "strconv.ParseFloat: parsing failed" [])
  | _ => .error .invalidValue

/-! ## The generic scalar engine `validator[T]` (`generic.go`) -/

/-- A parse result `parseResult[T]`: `valid`, `value` (the zero value unless
`Set` was called) and the collected errors. -/
structure ParseRes where
  valid : Bool
  value : GoVal
  errors : List ParseErr
  deriving DecidableEq, Repr

/-- The scalar engine `validator[T]`.  The target type records the instantiation `T`; `err`
records whether the build-time `err error` field is non-nil (its concrete
value is never inspected by `Parse`, which always reports
`InvalidValidatorStateError`). -/
structure Validator where
  target : GoTy
  transformerFn : Option (GoVal → Except ParseErr GoVal)
  options : List (GoVal → Option ParseErr)
  defaultValue : Option GoVal
  required : Bool
  err : Bool

/-- The tail of `validator[T].convert` for a non-nil input: kind comparison,
optional transformer / numeric string coercion, convertibility check and
conversion.  Mirrors `generic.go` lines 148-198; note the mismatch branch
operates on the original `val` (possibly a pointer), while the matching
branch adopts the dereferenced `vo`. -/
def Validator.convertNonNil (v : Validator) (val : GoVal) : Except ParseErr (Option GoVal) :=
  let vo := derefVal val
  if kindOf vo = kindOfTy v.target then
    -- typedVal = vo.Interface().(T)
    .ok (some vo)
  else
    let afterCoerce : Except ParseErr GoVal :=
      match v.transformerFn with
      | none =>
          if ¬ isNumericVal val ∧ isNumericTy v.target then
            match coerceToNumberF val with
            | .ok q => .ok (.vfloat q)
            | .error _ => .error .invalidType
          else
            .ok val
      | some f =>
          match f val with
          | .ok val1 => .ok val1
          | .error e => .error (.mk "transformer error" [e.message])
    match afterCoerce with
    | .error e => .error e
    | .ok val1 =>
        if goConvertibleTo (kindOf val1) v.target then
          .ok (some (goConvert val1 v.target))
        else
          .error .missingTransformer

/-- Conversion step `validator[T].convert`: nil resolves through the default value (the code
recurses on `&defaultValue`, a non-nil pointer, hence `convertNonNil`) or the
required flag; `Ok none` is the "absent and allowed" outcome `(nil, nil)`. -/
def Validator.convert (v : Validator) (val : GoVal) : Except ParseErr (Option GoVal) :=
  match val with
  | .vnil =>
      match v.defaultValue with
      | some d => v.convertNonNil (.vptr d)
      | none =>
          if v.required then .error .requiredMissing
          else .ok none
  | other => v.convertNonNil other

/-- Entry point `validator[T].Parse`: sticky build error, conversion, then every rule in
order with all failures collected; `valid` iff no error, and the value is
`Set` only on success. -/
def Validator.Parse (v : Validator) (val : GoVal) : ParseRes :=
  if v.err then
    { valid := false, value := zeroOf v.target, errors := [.invalidValidatorState] }
  else
    match v.convert val with
    | .error e => { valid := false, value := zeroOf v.target, errors := [e] }
    | .ok none => { valid := true, value := zeroOf v.target, errors := [] }
    | .ok (some tv) =>
        let errs := v.options.filterMap (fun opt => opt tv)
        { valid := errs.isEmpty
          value := if errs.isEmpty then tv else zeroOf v.target
          errors := errs }

/-- Builder step `validator[T].setDefault`: the default must be convertible to `T`
(checked on the undereferenced type), is dereferenced and converted, and an
incompatible default records a sticky build error instead.  (Go would panic
on a nil default — `reflect.TypeOf(nil)` — before the check; that case is
unreachable here and mapped to the error flag, no theorem relies on it.) -/
def Validator.setDefault (v : Validator) (val : GoVal) : Validator :=
  if ¬ goConvertibleTo (kindOf val) v.target then
    { v with err := true }
  else
    let vo := derefVal val
    if kindOf vo = GoKind.invalid then
      { v with err := true }
    else
      { v with defaultValue := some (goConvert vo v.target) }

/-- Builder step `validator[T].setRequired`. -/
def Validator.setRequired (v : Validator) : Validator :=
  { v with required := true }

/-! ## Rule combinators

Rules are `parseOpt[T]`, pure predicates from the coerced value to an
optional error.  In Go they are typed (`parseOpt[string]` can only receive a
string), so the non-target branches below are unreachable on every path the
engine takes; they return no error. -/

/-- Pick the optional custom message over the rule's default one. -/
def ruleErr (message : List String) (dflt : String) : ParseErr :=
  .mk (message.headD dflt) []

/-- Go `len` on a string counts bytes. -/
def goLen (s : String) : Nat := s.utf8ByteSize

/-- Rule `MinLength` (string.go): fails when `len(val) < min`. -/
def MinLength (min : Nat) (message : List String) : GoVal → Option ParseErr :=
  fun val =>
    match val with
    | .vstr s => if goLen s < min then some (ruleErr message "string too short") else none
    | _ => none

/-- Rule `MaxLength` (string.go): fails when `len(val) > max`. -/
def MaxLength (max : Nat) (message : List String) : GoVal → Option ParseErr :=
  fun val =>
    match val with
    | .vstr s => if goLen s > max then some (ruleErr message "string too long") else none
    | _ => none

/-- Rule `Matches` (string.go): `regexp.Compile(patt)` runs once at rule
construction; the compiled automaton is modelled by the Boolean matcher
`re`, and `compiled` records whether compilation succeeded (a malformed
pattern surfaces at evaluation time as an "invalid regexp pattern" error). -/
def Matches (re : String → Bool) (compiled : Bool) (message : List String) :
    GoVal → Option ParseErr :=
  fun val =>
    match val with
    | .vstr s =>
        if ¬ compiled then some (.mk "invalid regexp pattern" ["regexp compile error"])
        else if ¬ re s then some (ruleErr message "string does not match pattern")
        else none
    | _ => none

/-- The matcher compiled from the digits-only pattern `^[0-9]*$`:
it accepts exactly the (possibly empty) strings of ASCII digits. -/
def digitsOnly (s : String) : Bool := s.toList.all Char.isDigit

/-- Rule `NotBefore` (time.go): fails when `val.Before(datum)`. -/
def NotBefore (datum : Int) (message : List String) : GoVal → Option ParseErr :=
  fun val =>
    match val with
    | .vtime t => if t < datum then some (ruleErr message "date is too early") else none
    | _ => none

/-- Rule `NotAfter` (time.go): fails when `val.After(datum)`. -/
def NotAfter (datum : Int) (message : List String) : GoVal → Option ParseErr :=
  fun val =>
    match val with
    | .vtime t => if t > datum then some (ruleErr message "date is too late") else none
    | _ => none

/-! ## The numeric validator `ursaNumber` (`number.go` revision)

`Number(constraint, ...)` holds a `numberType` constraint (one of the
`numberTypeConstraint[T]` singletons produced by `Int()`, `Float64()`, ...),
modelled by the target `GoTy`.  `NewParseResult` always converts and stores
the value, and is valid iff no errors were passed. -/

structure UrsaNumber where
  target : GoTy
  options : List (GoVal → Option ParseErr)

/-- Result builder `numberTypeConstraint[T].NewParseResult`. -/
def numberNewParseResult (t : GoTy) (value : GoVal) (errs : List ParseErr) : ParseRes :=
  { valid := errs.isEmpty
    value := goConvert value t
    errors := errs }

/-- Constraint check `numberTypeConstraint[T].IsValid`: the input's type is convertible to `T`. -/
def numberIsValid (t : GoTy) (val : GoVal) : Bool :=
  goConvertibleTo (kindOf val) t

/-- Tail of `ursaNumber.Parse` on a non-string input: type-constraint check, then all
rules with every failure collected. -/
def UrsaNumber.parseNonString (u : UrsaNumber) (val : GoVal) : ParseRes :=
  if ¬ numberIsValid u.target val then
    numberNewParseResult u.target (.vint 0) [.invalidType]
  else
    numberNewParseResult u.target val (u.options.filterMap (fun opt => opt val))

/-- Entry point `ursaNumber.Parse`: a string input is parsed with
`strconv.ParseFloat(v, 64)` and Parse recurses on the resulting float64 (the
recursive call lands in the non-string path). -/
def UrsaNumber.Parse (u : UrsaNumber) (val : GoVal) : ParseRes :=
  match val with
  | .vstr s =>
      match parseGoFloat s with
      | none => numberNewParseResult u.target (.vint 0) [.invalidType]
      | some q => u.parseNonString (.vfloat q)
  | other => u.parseNonString other

/-! ## The composite `objectValidator` (`object.go` revision with ordered fields)

The Go struct keeps a `fields []string` slice to preserve declaration order
next to a `validators map[string]genericValidator[any]`; every builder method
appends to both in lockstep, so the pair is fused here into one ordered
association list from field name to the child validator's `Parse` function.
Byte payloads and `*http.Request` inputs are dispatched to source adapters
before the field loop; the claims below concern the record/map path, so an
`ObjSource` is a string-keyed map (explicit nil entries are `GoVal.vnil`) or
a value of any other, non-record shape. -/

inductive ObjSource where
  | mapSrc (entries : List (String × GoVal))
  | badSrc (v : GoVal)

/-- Composite result `objectParseResult`: the embedded `parseResult` over the field-result map
plus the `fields` slice copied for order preservation. -/
structure ObjParseRes where
  valid : Bool
  value : List (String × ParseRes)
  errors : List ParseErr
  fields : List String
  deriving DecidableEq, Repr

structure ObjectValidator where
  fields : List (String × (GoVal → ParseRes))
  refiners : List (ObjParseRes → List ParseErr)
  err : Bool

/-- Field extraction `objectValidator.extract`: the source must be a struct or map (possibly
behind a pointer, already accounted for in `ObjSource`); a field is looked up
by name, and an absent field (`!v.IsValid()`) yields `(nil, nil)` — plain
nil, exactly as a present-but-nil entry does. -/
def objExtract (src : ObjSource) (name : String) : Except ParseErr GoVal :=
  match src with
  | .badSrc _ => .error .invalidType
  | .mapSrc entries =>
      match entries.lookup name with
      | none => .ok .vnil
      | some v => .ok v

/-- One iteration of the field loop of `objectValidator.Parse`: extraction
failure becomes a per-field "failed to extract value" result, otherwise the
child validator parses the extracted value. -/
def objFieldResult (src : ObjSource) (nf : String × (GoVal → ParseRes)) : ParseRes :=
  match objExtract src nf.1 with
  | .error e => { valid := false, value := .vnil
                  errors := [.mk "failed to extract value" [e.message]] }
  | .ok fv => nf.2 fv

/-- The initial `objectParseResult` allocated by `objectValidator.Parse`
(note `valid` starts `true`). -/
def objInit (o : ObjectValidator) : ObjParseRes :=
  { valid := true, value := [], errors := [], fields := o.fields.map Prod.fst }

/-- One step of the field loop: store the field result under its name,
append its errors to the aggregate list, and drop `valid` on any invalid
field. -/
def fieldStep (src : ObjSource) (acc : ObjParseRes) (nf : String × (GoVal → ParseRes)) :
    ObjParseRes :=
  let fr := objFieldResult src nf
  { acc with
    value := acc.value ++ [(nf.1, fr)]
    errors := acc.errors ++ fr.errors
    valid := acc.valid && fr.valid }

/-- The field loop: run each declared field in declaration order. -/
def runFields (o : ObjectValidator) (src : ObjSource) : ObjParseRes :=
  o.fields.foldl (fieldStep src) (objInit o)

/-- The refiner loop (`objectRefinerFunc`): each refiner sees the aggregate
result after all fields were processed and may append further errors, which
land after everything already collected; a refiner is modelled by the list
of errors it appends to the result it receives. -/
def runRefiners : List (ObjParseRes → List ParseErr) → ObjParseRes → ObjParseRes
  | [], res => res
  | r :: rest, res => runRefiners rest { res with errors := res.errors ++ r res }

/-- The errors the refiner loop appends after the field errors: each
refiner's contribution, evaluated against the result as it stood when that
refiner ran. -/
def refinerErrs : List (ObjParseRes → List ParseErr) → ObjParseRes → List ParseErr
  | [], _ => []
  | r :: rest, res => r res ++ refinerErrs rest { res with errors := res.errors ++ r res }

/-- Entry point `objectValidator.Parse` on a record/map-shaped input: sticky build error
(which leaves the initial `valid := true` untouched, as in the source), the
ordered field loop, then the refiners. -/
def ObjectValidator.Parse (o : ObjectValidator) (src : ObjSource) : ObjParseRes :=
  if o.err then
    { objInit o with errors := [.invalidValidatorState] }
  else
    runRefiners o.refiners (runFields o src)

/-- Wrapper `validatorWrapper[T]` repackages a typed `genericParseResult[T]` as a
`parseResult[any]` with the same validity, value and errors; in this untyped
embedding that is the identity on results. -/
def wrapValidator (v : Validator) : GoVal → ParseRes :=
  fun val => v.Parse val

/-! ## The `GetInt` accessor of `objectParseResult`

`GetInt` reaches for `o.value[field].Get()` and switches on the reflect
kind.  Two of its paths panic: a map miss produces a nil `*parseResult` whose
`Get` dereferences nil, and the numeric case arm also lists the uint and
float kinds yet calls `reflect.Value.Int`, which panics unless the kind is a
signed integer. -/

inductive GoOutcome (α : Type) where
  | ok (a : α)
  | panic (msg : String)
  deriving DecidableEq, Repr

/-- Accessor `reflect.Value.Int`: panics unless the value's kind is Int/Int8/.../Int64. -/
def reflectValueInt (v : GoVal) : GoOutcome Int :=
  match v with
  | .vint n => .ok n
  | .vfloat _ => .panic "reflect: call of reflect.Value.Int on float64 Value"
  | .vstr _ => .panic "reflect: call of reflect.Value.Int on string Value"
  | .vtime _ => .panic "reflect: call of reflect.Value.Int on struct Value"
  | .vptr _ => .panic "reflect: call of reflect.Value.Int on ptr Value"
  | .vnil => .panic "reflect: call of reflect.Value.Int on zero Value"

/-- Accessor `objectParseResult.GetInt`. -/
def ObjParseRes.GetInt (r : ObjParseRes) (field : String) : GoOutcome Int :=
  match r.value.lookup field with
  | none =>
      -- o.value[field] is a nil *parseResult[any]; calling Get on it
      -- dereferences a nil pointer.
      .panic "runtime error: invalid memory address or nil pointer dereference"
  | some pr =>
      match pr.value with
      | .vnil => .ok 0
      | val =>
          match kindOf val with
          | .int | .float64 =>
              -- case reflect.Int, ..., reflect.Uint, ..., reflect.Float32,
              -- reflect.Float64: return int(vo.Int())
              match reflectValueInt val with
              | .ok n => .ok n
              | .panic m => .panic m
          | .str =>
              match val with
              | .vstr s =>
                  match parseGoInt s with
                  | none => .ok 0
                  | some i => .ok i
              | _ => .ok 0
          | _ => .ok 0

/-! ## Concrete schemas used to instantiate the claims -/

/-- A string validator with `MinLength(5)` and a digits-only `Matches` rule. -/
def minLenMatchesValidator : Validator :=
  { target := .tstr
    transformerFn := none
    options := [MinLength 5 [], Matches digitsOnly true []]
    defaultValue := none
    required := false
    err := false }

/-- A required string validator with rules and no default
(`String(MinLength(5), ..., Required())`). -/
def requiredStringValidator : Validator :=
  { target := .tstr
    transformerFn := none
    options := [MinLength 5 ["String should be at least 5 characters"]]
    defaultValue := none
    required := true
    err := false }

/-- A string validator with `MinLength(5)` and the default value "ab" — a
default that does not pass the declared rules. -/
def defaultedStringValidator : Validator :=
  { target := .tstr
    transformerFn := none
    options := [MinLength 5 []]
    defaultValue := some (.vstr "ab")
    required := false
    err := false }

/-- The `Int()` validator of the `number.go` revision with no rules. -/
def intNumberValidator : UrsaNumber :=
  { target := .tint, options := [] }

/-- A `Time(NotBefore(..), NotAfter(..))` validator with no `WithTimeFormat`
transformer configured. -/
def timeNoFormatValidator : Validator :=
  { target := .ttime
    transformerFn := none
    options := [NotBefore 0 [], NotAfter 100 []]
    defaultValue := none
    required := false
    err := false }

/-- A misconfigured validator: an `int` validator given the string default
"x" (`WithDefault("x")`), which `setDefault` rejects, recording a sticky
build error. -/
def badDefaultIntValidator : Validator :=
  Validator.setDefault
    { target := .tint
      transformerFn := none
      options := []
      defaultValue := none
      required := false
      err := false }
    (.vstr "x")

/-- The `TestString` schema: `String(MinLength(5, "String should be at least
5 characters"), MaxLength(10), Matches("^[0-9]*$"))`. -/
def testStringValidator : Validator :=
  { target := .tstr
    transformerFn := none
    options := [MinLength 5 ["String should be at least 5 characters"],
                MaxLength 10 [],
                Matches digitsOnly true []]
    defaultValue := none
    required := false
    err := false }

/-- Field validator "A" of the two-field object schema. -/
def fieldAValidator : Validator :=
  { target := .tstr
    transformerFn := none
    options := [MinLength 5 ["A too short"]]
    defaultValue := none
    required := false
    err := false }

/-- Field validator "B" of the two-field object schema. -/
def fieldBValidator : Validator :=
  { target := .tstr
    transformerFn := none
    options := [MinLength 5 ["B too short"]]
    defaultValue := none
    required := false
    err := false }

/-- An object schema declaring field "A" before field "B", with one refiner
that appends a cross-field error. -/
def abObjectValidator : ObjectValidator :=
  { fields := [("A", wrapValidator fieldAValidator), ("B", wrapValidator fieldBValidator)]
    refiners := [fun _ => [.mk "refinement failed" []]]
    err := false }

/-- A map input on which both "A" and "B" fail their MinLength rule. -/
def abFailingSource : ObjSource :=
  .mapSrc [("A", .vstr "abc"), ("B", .vstr "xy")]

/-- An object schema with a single Float64 field "Score". -/
def scoreObjectValidator : ObjectValidator :=
  { fields := [("Score",
      wrapValidator
        { target := .tfloat
          transformerFn := none
          options := []
          defaultValue := none
          required := false
          err := false })]
    refiners := []
    err := false }

/-- A map input carrying the float64 value 3.5 for "Score". -/
def scoreSource : ObjSource :=
  .mapSrc [("Score", .vfloat (7 / 2))]

/-! ## Helper lemmas -/

/-- Once `convert` succeeds with a value, `Parse`'s error list is exactly the
list of failures of the configured rules, in order, with no short-circuit. -/
theorem parse_errors_eq_filterMap (v : Validator) (val tv : GoVal)
    (herr : v.err = false) (hconv : v.convert val = .ok (some tv)) :
    (v.Parse val).errors = v.options.filterMap (fun opt => opt tv) := by
  unfold Validator.Parse
  rw [herr, hconv]
  simp

theorem kindOfTy_ne_invalid (t : GoTy) : kindOfTy t ≠ .invalid := by
  cases t <;> simp [kindOfTy]

theorem kindOfTy_ne_ptr (t : GoTy) : kindOfTy t ≠ .ptr := by
  cases t <;> simp [kindOfTy]

/-- The field loop appends, in declaration order, each field's result and its
errors. -/
theorem foldl_fieldStep_errors (src : ObjSource)
    (l : List (String × (GoVal → ParseRes))) (acc : ObjParseRes) :
    (l.foldl (fieldStep src) acc).errors =
      acc.errors ++ (l.map fun nf => (objFieldResult src nf).errors).flatten := by
  induction l generalizing acc with
  | nil => simp
  | cons nf t ih =>
      simp only [List.foldl_cons, List.map_cons, List.flatten_cons]
      rw [ih]
      simp [fieldStep, List.append_assoc]

/-- The refiner loop only appends errors, after everything already present. -/
theorem runRefiners_errors (rs : List (ObjParseRes → List ParseErr)) (res : ObjParseRes) :
    (runRefiners rs res).errors = res.errors ++ refinerErrs rs res := by
  induction rs generalizing res with
  | nil => simp [runRefiners, refinerErrs]
  | cons r rest ih =>
      simp only [runRefiners, refinerErrs]
      rw [ih]
      simp [List.append_assoc]

/-! ## The claims -/

/-- C1: for every scalar validator and every input that coerces successfully,
every configured rule is evaluated and every rule failure is collected into
the result's error list, in order and with no short-circuiting (the error
list is exactly the filtered list of all rule failures). -/
theorem rules_all_collected (v : Validator) (val tv : GoVal)
    (herr : v.err = false) (hconv : v.convert val = .ok (some tv)) :
    (v.Parse val).errors = v.options.filterMap (fun opt => opt tv) :=
  parse_errors_eq_filterMap v val tv herr hconv

/-- C1 witness: the string validator with MinLength(5) and a digits-only
Matches rule, given "abc1", collects exactly the two rule failures. -/
theorem rules_all_collected_witness :
    (minLenMatchesValidator.Parse (.vstr "abc1")).errors =
      [.mk "string too short" [], .mk "string does not match pattern" []] ∧
    (minLenMatchesValidator.Parse (.vstr "abc1")).errors.length = 2 := by
  have h := rules_all_collected minLenMatchesValidator (.vstr "abc1") (.vstr "abc1")
    rfl rfl
  exact ⟨by rw [h]; rfl, by rw [h]; rfl⟩

/-- C2: a required scalar validator with no default value parses nil to an
invalid result whose error list is exactly the "missing required property"
sentinel; no configured rule is evaluated (the result is the same for every
rule list). -/
theorem required_nil_single_missing_error (v : Validator)
    (opts : List (GoVal → Option ParseErr))
    (hreq : v.required = true) (hdef : v.defaultValue = none) (herr : v.err = false) :
    ({ v with options := opts }).Parse .vnil =
      { valid := false, value := zeroOf v.target, errors := [.requiredMissing] } := by
  unfold Validator.Parse Validator.convert
  simp [hreq, hdef, herr]

/-- C2 witness: the required string validator with a MinLength rule and no
default, given nil. -/
theorem required_nil_single_missing_error_witness :
    requiredStringValidator.Parse .vnil =
      { valid := false, value := .vstr "", errors := [.requiredMissing] } := by
  have h := required_nil_single_missing_error requiredStringValidator
    requiredStringValidator.options rfl rfl rfl
  exact h

/-- C3: a scalar validator with a configured default value `d` (which
`setDefault` stored as a value of the target type) parses nil exactly as it
parses `d`: the default is substituted before coercion and rule evaluation,
and validity is decided by `d` passing the declared rules. -/
theorem parse_nil_eq_parse_default (v : Validator) (d : GoVal)
    (hdef : v.defaultValue = some d) (hkind : kindOf d = kindOfTy v.target) :
    v.Parse .vnil = v.Parse d := by
  have hconv : v.convert .vnil = v.convert d := by
    unfold Validator.convert
    rw [hdef]
    cases d with
    | vnil => exact absurd hkind.symm (kindOfTy_ne_invalid v.target)
    | vptr x => exact absurd hkind.symm (kindOfTy_ne_ptr v.target)
    | vstr s => simp [Validator.convertNonNil, derefVal, hkind]
    | vint n => simp [Validator.convertNonNil, derefVal, hkind]
    | vfloat q => simp [Validator.convertNonNil, derefVal, hkind]
    | vtime t => simp [Validator.convertNonNil, derefVal, hkind]
  unfold Validator.Parse
  rw [hconv]

/-- C3 witness: a string validator with default "ab" and MinLength(5):
parsing nil behaves exactly like parsing "ab" — and is invalid, because the
default does not pass the rules (the default does not force validity). -/
theorem parse_nil_eq_parse_default_witness :
    defaultedStringValidator.Parse .vnil = defaultedStringValidator.Parse (.vstr "ab") ∧
    (defaultedStringValidator.Parse .vnil).valid = false := by
  have h := parse_nil_eq_parse_default defaultedStringValidator (.vstr "ab") rfl rfl
  exact ⟨h, by rw [h]; rfl⟩

/-- C4: an object validator evaluates its declared fields in declaration
order; the aggregate top-level error list is the concatenation of the field
error lists in that order, followed by the errors appended by the refiners. -/
theorem object_errors_in_declaration_order (o : ObjectValidator) (src : ObjSource)
    (herr : o.err = false) :
    (o.Parse src).errors =
      (o.fields.map fun nf => (objFieldResult src nf).errors).flatten
        ++ refinerErrs o.refiners (runFields o src) := by
  unfold ObjectValidator.Parse
  rw [herr]
  simp only [Bool.false_eq_true, if_false]
  rw [runRefiners_errors]
  unfold runFields
  rw [foldl_fieldStep_errors]
  simp [objInit]

/-- C4 witness: fields "A" (fails) then "B" (fails) with one refiner: the
aggregate error list has A's error first, then B's, then the refiner's. -/
theorem object_errors_in_declaration_order_witness :
    (abObjectValidator.Parse abFailingSource).errors =
      [.mk "A too short" [], .mk "B too short" [], .mk "refinement failed" []] := by
  rw [object_errors_in_declaration_order abObjectValidator abFailingSource rfl]
  rfl

/-- C5: an integer-typed numeric validator (`number.go` revision) parses a
numeric string through a float64 intermediate (`Parse(s)` equals `Parse` of
the parsed float) and narrows by truncation toward zero: the stored value is
the truncation of the parsed float. -/
theorem int_validator_string_truncates (u : UrsaNumber) (s : String) (q : ℚ)
    (ht : u.target = .tint) (hp : parseGoFloat s = some q) :
    u.Parse (.vstr s) = u.Parse (.vfloat q) ∧
    (u.Parse (.vstr s)).value = .vint (goTrunc q) := by
  have h1 : u.Parse (.vstr s) = u.Parse (.vfloat q) := by
    simp only [UrsaNumber.Parse, hp]
  refine ⟨h1, ?_⟩
  rw [h1]
  unfold UrsaNumber.Parse UrsaNumber.parseNonString
  simp [numberIsValid, ht, kindOf, goConvertibleTo, numberNewParseResult, goConvert]

/-- C5 witness: the `Int()` validator with no rules, given "3.9", yields a
valid result whose value is 3. -/
theorem int_validator_string_truncates_witness :
    parseGoFloat "3.9" = some ((39 : ℚ) / 10) ∧
    intNumberValidator.Parse (.vstr "3.9") =
      { valid := true, value := .vint 3, errors := [] } := by
  have hp0 : parseGoFloat "3.9" =
      some ((1 : ℚ) * (((3 : ℕ) : ℚ) + ((9 : ℕ) : ℚ) / (10 : ℚ) ^ (1 : ℕ))) := rfl
  have hq : ((1 : ℚ) * (((3 : ℕ) : ℚ) + ((9 : ℕ) : ℚ) / (10 : ℚ) ^ (1 : ℕ)))
      = (39 : ℚ) / 10 := by
    push_cast
    ring_nf
  have hp : parseGoFloat "3.9" = some ((39 : ℚ) / 10) := by rw [hp0, hq]
  have h := int_validator_string_truncates intNumberValidator "3.9" ((39 : ℚ) / 10) rfl hp
  have hnum : ((39 : ℚ) / 10).num = 39 := by norm_num
  have hden : ((39 : ℚ) / 10).den = 10 := by norm_num
  have htr : goTrunc ((39 : ℚ) / 10) = 3 := by
    unfold goTrunc
    rw [hnum, hden]
    decide
  refine ⟨hp, ?_⟩
  rw [h.1]
  show intNumberValidator.parseNonString (.vfloat ((39 : ℚ) / 10)) = _
  unfold UrsaNumber.parseNonString numberIsValid numberNewParseResult
  simp [kindOf, goConvertibleTo, goConvert, htr, intNumberValidator]

/-- C6: a time validator with no configured transformer (no WithTimeFormat),
given any string input, returns an invalid result whose error list is
exactly the MissingTransformer sentinel — a sentinel distinct from the
generic invalid-type sentinel. -/
theorem time_string_missing_transformer (v : Validator) (s : String)
    (ht : v.target = .ttime) (htr : v.transformerFn = none) (herr : v.err = false) :
    v.Parse (.vstr s) =
      { valid := false, value := zeroOf v.target, errors := [.missingTransformer] } ∧
    ParseErr.missingTransformer ≠ ParseErr.invalidType := by
  refine ⟨?_, by decide⟩
  unfold Validator.Parse Validator.convert Validator.convertNonNil
  rw [herr, htr]
  simp [derefVal, kindOf, ht, kindOfTy, isNumericVal, isNumericTy, goConvertibleTo]

/-- C6 witness: the `Time(NotBefore, NotAfter)` validator with no format,
given a textual date. -/
theorem time_string_missing_transformer_witness :
    timeNoFormatValidator.Parse (.vstr "2023-01-01T00:00:00Z") =
      { valid := false, value := .vtime 0, errors := [.missingTransformer] } := by
  exact (time_string_missing_transformer timeNoFormatValidator "2023-01-01T00:00:00Z"
    rfl rfl rfl).1

/-- C7: a scalar validator whose construction recorded a build error fails
every subsequent Parse, for every input, with exactly the
invalid-validator-state sentinel, without evaluating coercion or rules (the
result is the same for every input and every rule list). -/
theorem build_error_sticky (v : Validator) (val : GoVal) (herr : v.err = true) :
    v.Parse val =
      { valid := false, value := zeroOf v.target, errors := [.invalidValidatorState] } := by
  unfold Validator.Parse
  rw [herr]
  simp

/-- C7 witness: the int validator built with the incompatible default "x"
has its sticky build error and fails Parse on an int input and on a string
input alike. -/
theorem build_error_sticky_witness :
    badDefaultIntValidator.err = true ∧
    badDefaultIntValidator.Parse (.vint 7) =
      { valid := false, value := .vint 0, errors := [.invalidValidatorState] } ∧
    badDefaultIntValidator.Parse (.vstr "5") =
      { valid := false, value := .vint 0, errors := [.invalidValidatorState] } := by
  refine ⟨rfl, ?_, ?_⟩
  · exact build_error_sticky badDefaultIntValidator (.vint 7) rfl
  · exact build_error_sticky badDefaultIntValidator (.vstr "5") rfl

/-- C8 (code bug): `GetInt`, called on a field whose validated value is a
float64 (a documented accessor on a documented input shape), panics: the
numeric case arm of `GetInt` also lists the uint and float kinds but calls
`reflect.Value.Int`, which panics unless the kind is a signed integer.  The
object parse itself succeeds (`valid = true`), so the panic is reachable
from an ordinary, fully valid input — contradicting the claim that the
library never raises an unrecoverable fault on documented inputs. -/
theorem getInt_on_float_field_panics :
    (scoreObjectValidator.Parse scoreSource).valid = true ∧
    ((scoreObjectValidator.Parse scoreSource).value.lookup "Score") =
      some { valid := true, value := .vfloat (7 / 2), errors := [] } ∧
    (scoreObjectValidator.Parse scoreSource).GetInt "Score" =
      .panic "reflect: call of reflect.Value.Int on float64 Value" := by
  exact ⟨rfl, rfl, rfl⟩

/-- C9 counterexample: extracting a declared field from a map source yields
the same plain nil whether the field is absent or present with an explicit
nil value — there is no "not present" sentinel distinguishable from an
explicit nil. -/
theorem extract_absent_equals_explicit_nil :
    objExtract (.mapSrc []) "A" = objExtract (.mapSrc [("A", .vnil)]) "A" ∧
    objExtract (.mapSrc []) "A" = .ok .vnil := by
  exact ⟨rfl, rfl⟩

/-- C9 amended: for every object validator field and map source, extraction
yields the field's value if present and plain nil if absent (no error and no
distinct marker), and the field's child validator is invoked on exactly that
value. -/
theorem extract_absent_is_plain_nil (entries : List (String × GoVal)) (name : String)
    (f : GoVal → ParseRes) :
    objExtract (.mapSrc entries) name = .ok ((entries.lookup name).getD .vnil) ∧
    objFieldResult (.mapSrc entries) (name, f) = f ((entries.lookup name).getD .vnil) := by
  cases h : entries.lookup name <;>
    simp [objExtract, objFieldResult, h]

/-- C10: the generic scalar validator with string target and no transformer
does not reject an integer input as an invalid type: Go's reflect conversion
admits integer-to-string conversion, so the integer is converted to the
one-code-point string of that code point, and all configured rules are then
evaluated against that converted string. -/
theorem int_input_converted_code_point (v : Validator) (n : Int)
    (ht : v.target = .tstr) (htr : v.transformerFn = none) (herr : v.err = false) :
    v.convert (.vint n) = .ok (some (.vstr (goIntToString n))) ∧
    (v.Parse (.vint n)).errors =
      v.options.filterMap (fun opt => opt (.vstr (goIntToString n))) := by
  have hconv : v.convert (.vint n) = .ok (some (.vstr (goIntToString n))) := by
    unfold Validator.convert Validator.convertNonNil
    rw [htr]
    simp [derefVal, kindOf, ht, kindOfTy, isNumericVal, isNumericTy, goConvertibleTo,
      goConvert]
  exact ⟨hconv, parse_errors_eq_filterMap v (.vint n) (.vstr (goIntToString n)) herr hconv⟩

/-- C10 witness: the `TestString` schema given the integer 1: the integer is
converted to "\x01" (one code point, not the decimal rendering "1") and the
MinLength and Matches rules both fail on it — two errors, no invalid-type
error. -/
theorem int_input_converted_code_point_witness :
    goIntToString 1 = "\x01" ∧
    (testStringValidator.Parse (.vint 1)).errors =
      [.mk "String should be at least 5 characters" [],
       .mk "string does not match pattern" []] ∧
    (testStringValidator.Parse (.vint 1)).errors.length = 2 := by
  have h := int_input_converted_code_point testStringValidator 1 rfl rfl rfl
  refine ⟨by decide, ?_, ?_⟩
  · rw [h.2]; rfl
  · rw [h.2]; rfl

end Ursa
